import Mathlib

/-!
# HaloView signaling layer: a shallow embedding

This file embeds the HaloView signaling broker (`src/signaling/server.js`)
and the viewer-side streaming client (`src/streaming/StreamClient.js`) as
executable Lean definitions, and proves properties of the routing and
session-lifecycle rules.

JavaScript `Map` objects (the broker's `peers` map, the client's
`peerConnections` and `dataChannels` maps) are modelled as insertion-ordered
association lists: `Map.get` is first-match lookup, `Map.set` updates in
place or appends, `Map.delete` removes the entry, and iteration follows
insertion order, exactly as in the JS runtime.

The client's `peerConnections` map is keyed in JS by the template string
`"<remotePeerId>:<panelId>"` where `remotePeerId` is a broker-assigned
natural number.  Since the decimal representation of a natural number
contains no colon, this string encoding is injective on `(remotePeerId,
panelId)` pairs, and the prefix test `key.startsWith(peerId + ":")` used by
the peer-disconnected handler holds exactly when the key's first component
equals `peerId`.  We therefore key the modelled map by the pair itself.

WebRTC objects are modelled by their observable lifecycle: an
`RTCPeerConnection` is a record carrying a creation identity, a closed
flag, and the applied remote/local descriptions; `createAnswer` is an
opaque deterministic function of the remote SDP.
-/

namespace HaloView

/-! ## Association lists (JS `Map` model) -/

/-- First-match lookup (JS `Map.get`). -/
def getA {α β : Type} [DecidableEq α] : List (α × β) → α → Option β
  | [], _ => none
  | e :: l, k => if e.1 = k then some e.2 else getA l k

/-- Update the value stored at a key, keeping position (mutation of the
object returned by `Map.get`). -/
def modA {α β : Type} [DecidableEq α] : List (α × β) → α → (β → β) → List (α × β)
  | [], _, _ => []
  | e :: l, k, f => if e.1 = k then (e.1, f e.2) :: modA l k f else e :: modA l k f

/-- JS `Map.set`: overwrite in place when the key is present, append
otherwise. -/
def setA {α β : Type} [DecidableEq α] (l : List (α × β)) (k : α) (v : β) : List (α × β) :=
  match getA l k with
  | some _ => modA l k (fun _ => v)
  | none => l ++ [(k, v)]

/-- JS `Map.delete`. -/
def eraseA {α β : Type} [DecidableEq α] : List (α × β) → α → List (α × β)
  | [], _ => []
  | e :: l, k => if e.1 = k then eraseA l k else e :: eraseA l k

/-! ## Broker data model (`src/signaling/server.js`) -/

/-- One registry entry: `peers.set(peerId, { ws, role: null, panelIds: [] })`.
The socket handle is implicit (a message to a peer is addressed by its id);
`role` is `null` until a `register` message arrives. -/
structure Peer where
  role : Option String
  panelIds : List String
  windowList : Option (List String)
deriving DecidableEq

/-- The entry created on connection accept. -/
def freshPeer : Peer := { role := none, panelIds := [], windowList := none }

/-- Broker state: the `peers` map plus the monotonic id counter. -/
structure ServerState where
  peers : List (Nat × Peer)
  nextPeerId : Nat
deriving DecidableEq

def initServer : ServerState := { peers := [], nextPeerId := 1 }

/-- Inbound messages, by the `msg.type` switch of `handleMessage`. -/
inductive ClientMsg where
  | register (role : String) (panelIds : Option (List String))
  | offer (targetId : Nat) (sdp : String) (panelId : String)
  | answer (targetId : Nat) (sdp : String) (panelId : String)
  | iceCandidate (targetId : Nat) (candidate : String) (panelId : String)
  | panelRequest (panelId : String)
  | windowListMsg (windows : List String)
  | requestWindowList
  | captureWindow (targetId : Nat) (sourceId : String) (panelId : String) (orientation : String)
  | releasePanelMsg (targetId : Nat) (panelId : String)
  | unknown (t : String)
deriving DecidableEq

/-- The peer summaries sent in a welcome message. -/
structure PeerInfo where
  peerId : Nat
  role : Option String
  panelIds : List String
deriving DecidableEq

/-- Outbound broker messages.  `forwarded m f` is the spread
`{ ...msg, fromId }`: the original message verbatim with the sender's id
attached. -/
inductive OutMsg where
  | welcome (peerId : Nat) (peers : List PeerInfo) (windowList : Option (List String))
  | peerRegistered (peerId : Nat) (role : String) (panelIds : List String)
  | forwarded (orig : ClientMsg) (fromId : Nat)
  | panelRequestOut (fromId : Nat) (panelId : String)
  | windowListOut (fromId : Nat) (windows : List String)
  | requestWindowListOut (fromId : Nat)
  | peerDisconnected (peerId : Nat)
deriving DecidableEq

/-- The registry query `listByRole` (the `role === r` filter pattern of the
source). -/
def listByRole (s : ServerState) (r : String) : List (Nat × Peer) :=
  s.peers.filter (fun e => decide (e.2.role = some r))

/-- `handleMessage(fromId, msg)`, returning the new state and the list of
sends `(recipientId, message)` in emission order. -/
def handleMessage (fromId : Nat) (msg : ClientMsg) (s : ServerState) :
    ServerState × List (Nat × OutMsg) :=
  match getA s.peers fromId with
  | none => (s, [])
  | some _ =>
    match msg with
    | .register role panelIds =>
        let ps := modA s.peers fromId
          (fun p => { p with role := some role, panelIds := panelIds.getD [] })
        ({ s with peers := ps },
         ps.map (fun e => (e.1, OutMsg.peerRegistered fromId role (panelIds.getD []))))
    | .offer t _ _ | .answer t _ _ | .iceCandidate t _ _ =>
        match getA s.peers t with
        | some _ => (s, [(t, OutMsg.forwarded msg fromId)])
        | none => (s, [])
    | .panelRequest pid =>
        (s, (s.peers.filter (fun e => decide (e.2.role = some "capture"))).map
              (fun e => (e.1, OutMsg.panelRequestOut fromId pid)))
    | .windowListMsg ws =>
        let ps := modA s.peers fromId (fun p => { p with windowList := some ws })
        ({ s with peers := ps },
         (ps.filter (fun e => decide (e.2.role = some "viewer"))).map
           (fun e => (e.1, OutMsg.windowListOut fromId ws)))
    | .requestWindowList =>
        (s, (s.peers.filter (fun e => decide (e.2.role = some "capture"))).map
              (fun e => (e.1, OutMsg.requestWindowListOut fromId)))
    | .captureWindow t _ _ _ | .releasePanelMsg t _ =>
        match getA s.peers t with
        | some tp =>
            if tp.role = some "capture" then (s, [(t, OutMsg.forwarded msg fromId)])
            else (s, [])
        | none => (s, [])
    | .unknown _ => (s, [])

/-- The `wss.on('connection')` handler: assign the next id, insert a fresh
entry, and send the welcome (composed from the map after insertion, with
the new peer filtered out by id and the first cached capture window list
attached). -/
def handleConnect (s : ServerState) : ServerState × List (Nat × OutMsg) :=
  let id := s.nextPeerId
  let ps := s.peers ++ [(id, freshPeer)]
  let cached := (ps.find? (fun e => decide (e.2.role = some "capture") && e.2.windowList.isSome)).bind
      (fun e => e.2.windowList)
  let infos := (ps.filter (fun e => decide (¬ e.1 = id))).map
      (fun e => PeerInfo.mk e.1 e.2.role e.2.panelIds)
  ({ peers := ps, nextPeerId := id + 1 }, [(id, OutMsg.welcome id infos cached)])

/-- The `ws.on('close')` handler: delete the entry first, then broadcast
`peer-disconnected` to the (remaining) peers. -/
def handleClose (s : ServerState) (peerId : Nat) : ServerState × List (Nat × OutMsg) :=
  let ps := eraseA s.peers peerId
  ({ s with peers := ps }, ps.map (fun e => (e.1, OutMsg.peerDisconnected peerId)))

/-- Broker events, processed to completion one at a time (the broker is
single-threaded and event-driven). -/
inductive Ev where
  | connect
  | msg (fromId : Nat) (m : ClientMsg)
  | close (peerId : Nat)
deriving DecidableEq

def step (s : ServerState) : Ev → ServerState × List (Nat × OutMsg)
  | .connect => handleConnect s
  | .msg f m => handleMessage f m s
  | .close p => handleClose s p

def run (s : ServerState) (evs : List Ev) : ServerState :=
  evs.foldl (fun st e => (step st e).1) s

/-! ## Viewer client data model (`src/streaming/StreamClient.js`) -/

/-- Observable state of one `RTCPeerConnection`: a creation identity (which
call to `new RTCPeerConnection` produced it), the closed flag, and the
applied descriptions. -/
structure PC where
  pcId : Nat
  closed : Bool
  remoteDesc : Option String
  localDesc : Option String
deriving DecidableEq

def closePC (pc : PC) : PC := { pc with closed := true }

/-- Model of the `createAnswer` collaborator: an opaque deterministic
function of the applied remote description. -/
def mkAnswer (sdp : String) : String := "answer:" ++ sdp

/-- `StreamClient` state relevant to session lifecycle: `peerConnections`
keyed by the (injective) `"remotePeerId:panelId"` composite key,
`dataChannels` keyed by `panelId` alone, the tracked capture peer ids, and
a counter giving fresh identities to created connections. -/
structure Client where
  peerConnections : List ((Nat × String) × PC)
  dataChannels : List (String × Nat)
  capturePeerIds : List Nat
  nextPcId : Nat
deriving DecidableEq

/-- Messages the client sends that the claims mention. -/
inductive ClientOut where
  | answerOut (targetId : Nat) (sdp : String) (panelId : String)
  | releasePanelOut (targetId : Nat) (panelId : String)
deriving DecidableEq

/-- `_getOrCreatePC(remotePeerId, panelId)`: return the existing connection
for the composite key when there is one; otherwise create a fresh
connection, store it under the key, and return it. -/
def getOrCreatePC (c : Client) (remotePeerId : Nat) (panelId : String) : Client × PC :=
  match getA c.peerConnections (remotePeerId, panelId) with
  | some pc => (c, pc)
  | none =>
      let pc : PC := { pcId := c.nextPcId, closed := false, remoteDesc := none, localDesc := none }
      ({ c with
          peerConnections := c.peerConnections ++ [((remotePeerId, panelId), pc)],
          nextPcId := c.nextPcId + 1 }, pc)

/-- The `offer` case of `_handleSignal`: get or create the connection for
`(fromId, panelId)`, apply the remote description, create and apply the
answer, and send the answer back with `targetId = fromId` and the panel id. -/
def handleOffer (c : Client) (fromId : Nat) (panelId sdp : String) : Client × List ClientOut :=
  let r := getOrCreatePC c fromId panelId
  let pc2 := { r.2 with remoteDesc := some sdp, localDesc := some (mkAnswer sdp) }
  ({ r.1 with peerConnections := modA r.1.peerConnections (fromId, panelId) (fun _ => pc2) },
   [ClientOut.answerOut fromId (mkAnswer sdp) panelId])

/-- The `peer-disconnected` case of `_handleSignal`: close and delete every
session whose key starts with `"<peerId>:"` (equivalently, whose first
component is `peerId`), and drop the id from `capturePeerIds`.  Returns
the new state together with the connections on which `close()` was
invoked. -/
def handlePeerDisconnected (c : Client) (peerId : Nat) : Client × List PC :=
  let removed := c.peerConnections.filter (fun e => decide (e.1.1 = peerId))
  ({ c with
      peerConnections := c.peerConnections.filter (fun e => decide (¬ e.1.1 = peerId)),
      capturePeerIds := c.capturePeerIds.filter (fun i => decide (¬ i = peerId)) },
   removed.map (fun e => closePC e.2))

/-- The channel key computed by `pc.ondatachannel`: panel id parsed from an
`"input:<panelId>"` label, else the session's panel id. -/
def channelPanelFor (sessionPanelId label : String) : String :=
  if label.startsWith "input:" then label.drop 6 else sessionPanelId

/-- `pc.ondatachannel` for a session bound to `sessionPanelId`: store the
channel in `dataChannels` under the computed panel id. -/
def onDataChannel (c : Client) (sessionPanelId label : String) (ch : Nat) : Client :=
  { c with dataChannels := setA c.dataChannels (channelPanelFor sessionPanelId label) ch }

/-- `releasePanel(targetCapturePeerId, panelId)`: send the release message,
close and remove the local session for the composite key when present, and
delete the data channel stored under `panelId` (unconditionally).  Returns
the new state, the outbound messages, and the connections closed. -/
def releasePanel (c : Client) (targetCapturePeerId : Nat) (panelId : String) :
    Client × List ClientOut × List PC :=
  let out := [ClientOut.releasePanelOut targetCapturePeerId panelId]
  match getA c.peerConnections (targetCapturePeerId, panelId) with
  | some pc =>
      ({ c with
          peerConnections := eraseA c.peerConnections (targetCapturePeerId, panelId),
          dataChannels := eraseA c.dataChannels panelId }, out, [closePC pc])
  | none =>
      ({ c with dataChannels := eraseA c.dataChannels panelId }, out, [])

/-! ## Derived definitions and sample states -/

/-- Registry invariant established by the connection handler: every
registered id was allocated by the monotonic counter, so it is below
`nextPeerId`. -/
def Inv (s : ServerState) : Prop :=
  ∀ k ∈ s.peers.map Prod.fst, k < s.nextPeerId

def sampleCapturePeer : Peer := { role := some "capture", panelIds := ["p"], windowList := none }

def sampleViewerPeer : Peer := { role := some "viewer", panelIds := [], windowList := none }

/-- A broker state with one registered capture peer and one registered viewer. -/
def sampleServer : ServerState :=
  { peers := [(1, sampleCapturePeer), (2, sampleViewerPeer)], nextPeerId := 3 }

/-- A broker state with two connected but unregistered peers. -/
def twoFresh : ServerState :=
  { peers := [(1, freshPeer), (2, freshPeer)], nextPeerId := 3 }

/-- A broker state with two registered viewers. -/
def twoViewers : ServerState :=
  { peers := [(1, sampleViewerPeer), (2, sampleViewerPeer)], nextPeerId := 3 }

/-- A viewer client holding one live session with capture peer 1 for panel
`"p"` (connection identity 0) and an input channel for that panel. -/
def sampleClient : Client :=
  { peerConnections := [((1, "p"), ⟨0, false, none, none⟩)],
    dataChannels := [("p", 5)], capturePeerIds := [1], nextPcId := 1 }

/-- A broker state with one registered capture peer that has published a
window catalogue. -/
def cacheServer : ServerState :=
  { peers := [(1, { role := some "capture", panelIds := ["p"], windowList := some ["w1"] })],
    nextPeerId := 2 }

/-- Folding a sequence of register messages from one peer into the broker
state (only the state component, outputs discarded). -/
def applyRegisters (f : Nat) (s : ServerState)
    (regs : List (String × Option (List String))) : ServerState :=
  regs.foldl (fun st r => (handleMessage f (ClientMsg.register r.1 r.2) st).1) s

/-! ## Association-list lemmas -/

section AssocLemmas

variable {α β : Type} [DecidableEq α]

theorem getA_eq_none_iff (l : List (α × β)) (k : α) :
    getA l k = none ↔ k ∉ l.map Prod.fst := by
  induction l with
  | nil => simp [getA]
  | cons e l ih =>
    by_cases h : e.1 = k
    · simp [getA, h]
    · simp only [getA, if_neg h, ih, List.map_cons, List.mem_cons]
      have hke : ¬ k = e.1 := fun hh => h hh.symm
      tauto

theorem keys_modA (l : List (α × β)) (k : α) (f : β → β) :
    (modA l k f).map Prod.fst = l.map Prod.fst := by
  induction l with
  | nil => rfl
  | cons e l ih => by_cases h : e.1 = k <;> simp [modA, h, ih]

theorem getA_modA_self (l : List (α × β)) (k : α) (f : β → β) :
    getA (modA l k f) k = (getA l k).map f := by
  induction l with
  | nil => rfl
  | cons e l ih => by_cases h : e.1 = k <;> simp [modA, getA, h, ih]

theorem getA_append_of_none (l l2 : List (α × β)) (k : α) (h : getA l k = none) :
    getA (l ++ l2) k = getA l2 k := by
  induction l with
  | nil => rfl
  | cons e l ih =>
    by_cases he : e.1 = k
    · simp [getA, he] at h
    · simp only [getA, List.cons_append, if_neg he] at h ⊢
      exact ih h

theorem getA_eraseA_self (l : List (α × β)) (k : α) : getA (eraseA l k) k = none := by
  induction l with
  | nil => rfl
  | cons e l ih => by_cases h : e.1 = k <;> simp [eraseA, getA, h, ih]

theorem mem_keys_eraseA (l : List (α × β)) (k j : α)
    (h : j ∈ (eraseA l k).map Prod.fst) : j ∈ l.map Prod.fst := by
  induction l with
  | nil => simp [eraseA] at h
  | cons e l ih =>
    by_cases he : e.1 = k
    · simp only [eraseA, he, if_true] at h
      simp [ih h]
    · simp only [eraseA, he, if_false, List.map_cons, List.mem_cons] at h
      rcases h with h | h
      · simp [h]
      · simp [ih h]

theorem keys_setA_nodup (l : List (α × β)) (k : α) (v : β)
    (h : (l.map Prod.fst).Nodup) : ((setA l k v).map Prod.fst).Nodup := by
  unfold setA
  cases hg : getA l k with
  | some w => simpa [keys_modA] using h
  | none =>
    have hk : k ∉ l.map Prod.fst := (getA_eq_none_iff l k).mp hg
    simp [List.nodup_append, h, hk]

end AssocLemmas

theorem map_fst_pair {α β γ : Type} (l : List (α × β)) (g : α → γ) :
    l.map (fun e => g e.1) = (l.map Prod.fst).map g := by
  simp [List.map_map]

/-! ## Broker state-machine lemmas -/

/-- `handleMessage` never adds or removes registry entries and never
touches the id counter: it only updates fields of existing entries. -/
theorem handleMessage_keys (f : Nat) (m : ClientMsg) (s : ServerState) :
    (handleMessage f m s).1.peers.map Prod.fst = s.peers.map Prod.fst ∧
    (handleMessage f m s).1.nextPeerId = s.nextPeerId := by
  unfold handleMessage
  cases hg : getA s.peers f
  · simp
  · cases m with
    | register role pids => simp [keys_modA]
    | offer t a b => rcases hgt : getA s.peers t with - | tp <;> simp [hgt]
    | answer t a b => rcases hgt : getA s.peers t with - | tp <;> simp [hgt]
    | iceCandidate t a b => rcases hgt : getA s.peers t with - | tp <;> simp [hgt]
    | panelRequest pid => simp
    | windowListMsg ws => simp [keys_modA]
    | requestWindowList => simp
    | captureWindow t a b o =>
      rcases hgt : getA s.peers t with - | tp
      · simp [hgt]
      · by_cases hr : tp.role = some "capture" <;> simp [hgt, hr]
    | releasePanelMsg t a =>
      rcases hgt : getA s.peers t with - | tp
      · simp [hgt]
      · by_cases hr : tp.role = some "capture" <;> simp [hgt, hr]
    | unknown t => simp

theorem handleConnect_state (s : ServerState) :
    (handleConnect s).1.peers = s.peers ++ [(s.nextPeerId, freshPeer)] ∧
    (handleConnect s).1.nextPeerId = s.nextPeerId + 1 :=
  ⟨rfl, rfl⟩

theorem handleClose_state (s : ServerState) (q : Nat) :
    (handleClose s q).1.peers = eraseA s.peers q ∧
    (handleClose s q).1.nextPeerId = s.nextPeerId :=
  ⟨rfl, rfl⟩

/-- One broker step preserves the counter invariant, never shrinks the
counter, and never resurrects an id that is absent and below the counter. -/
theorem step_preserves (s : ServerState) (e : Ev) (p : Nat)
    (hInv : Inv s) (hp : p < s.nextPeerId) (habs : p ∉ s.peers.map Prod.fst) :
    Inv (step s e).1 ∧ p < (step s e).1.nextPeerId ∧
      p ∉ (step s e).1.peers.map Prod.fst := by
  cases e with
  | connect =>
    have hpeers : (step s Ev.connect).1.peers = s.peers ++ [(s.nextPeerId, freshPeer)] :=
      (handleConnect_state s).1
    have hnext : (step s Ev.connect).1.nextPeerId = s.nextPeerId + 1 :=
      (handleConnect_state s).2
    refine ⟨?_, ?_, ?_⟩
    · intro k hk
      rw [hpeers, List.map_append] at hk
      rw [hnext]
      rcases List.mem_append.mp hk with h | h
      · exact Nat.lt_succ_of_lt (hInv k h)
      · have hkn : k = s.nextPeerId := by simpa using h
        subst hkn
        exact Nat.lt_succ_self _
    · rw [hnext]
      exact Nat.lt_succ_of_lt hp
    · rw [hpeers, List.map_append]
      intro hk
      rcases List.mem_append.mp hk with h | h
      · exact habs h
      · have hpn : p = s.nextPeerId := by simpa using h
        subst hpn
        exact Nat.lt_irrefl _ hp
  | msg f m =>
    have hk := handleMessage_keys f m s
    refine ⟨?_, ?_, ?_⟩
    · intro k hkm
      rw [show (step s (Ev.msg f m)).1 = (handleMessage f m s).1 from rfl, hk.1] at hkm
      rw [show (step s (Ev.msg f m)).1 = (handleMessage f m s).1 from rfl, hk.2]
      exact hInv k hkm
    · rw [show (step s (Ev.msg f m)).1 = (handleMessage f m s).1 from rfl, hk.2]
      exact hp
    · rw [show (step s (Ev.msg f m)).1 = (handleMessage f m s).1 from rfl, hk.1]
      exact habs
  | close q =>
    have hst := handleClose_state s q
    refine ⟨?_, ?_, ?_⟩
    · intro k hkm
      rw [show (step s (Ev.close q)).1 = (handleClose s q).1 from rfl, hst.1] at hkm
      rw [show (step s (Ev.close q)).1 = (handleClose s q).1 from rfl, hst.2]
      exact hInv k (mem_keys_eraseA s.peers q k hkm)
    · rw [show (step s (Ev.close q)).1 = (handleClose s q).1 from rfl, hst.2]
      exact hp
    · rw [show (step s (Ev.close q)).1 = (handleClose s q).1 from rfl, hst.1]
      intro hk
      exact habs (mem_keys_eraseA s.peers q p hk)

/-- An id that is absent from the registry and below the counter stays
absent under every subsequent event sequence. -/
theorem run_absent (s : ServerState) (evs : List Ev) (p : Nat)
    (hInv : Inv s) (hp : p < s.nextPeerId) (habs : p ∉ s.peers.map Prod.fst) :
    p ∉ (run s evs).peers.map Prod.fst := by
  induction evs generalizing s with
  | nil => exact habs
  | cons e evs ih =>
    have h := step_preserves s e p hInv hp habs
    exact ih (step s e).1 h.1 h.2.1 h.2.2


/-! ## Auxiliary routing lemmas -/

theorem modA_map_pair {α β γ : Type} [DecidableEq α] (l : List (α × β)) (k : α)
    (f : β → β) (m : γ) :
    (modA l k f).map (fun e => (e.1, m)) = l.map (fun e => (e.1, m)) := by
  induction l with
  | nil => rfl
  | cons e l ih => by_cases h : e.1 = k <;> simp [modA, h, ih]

theorem find?_append_single_false {α : Type} (l : List α) (x : α) (q : α → Bool)
    (hx : q x = false) : (l ++ [x]).find? q = l.find? q := by
  induction l with
  | nil => simp [List.find?, hx]
  | cons e l ih => by_cases he : q e <;> simp [List.find?, he, ih]

/-- The updated registry entry after a register step. -/
theorem register_step_getA (s : ServerState) (f : Nat) (role : String)
    (pids : Option (List String)) (hs : (getA s.peers f).isSome) :
    getA (handleMessage f (ClientMsg.register role pids) s).1.peers f
      = (getA s.peers f).map
          (fun p => { p with role := some role, panelIds := pids.getD [] }) := by
  rcases Option.isSome_iff_exists.mp hs with ⟨q, hq⟩
  have hstate : (handleMessage f (ClientMsg.register role pids) s).1.peers
      = modA s.peers f
          (fun p => { p with role := some role, panelIds := pids.getD [] }) := by
    unfold handleMessage
    rw [hq]
  rw [hstate, getA_modA_self]

/-! ## Claim theorems -/

/-- C10: a parsed message whose sender is no longer in the registry makes
the handler return immediately: no registry mutation, no outbound message,
no error. -/
theorem C10_unknown_sender_noop (s : ServerState) (f : Nat) (m : ClientMsg)
    (h : getA s.peers f = none) :
    handleMessage f m s = (s, []) := by
  unfold handleMessage
  rw [h]

/-- Witness for C10 at a concrete state and message. -/
theorem C10_unknown_sender_noop_witness :
    getA sampleServer.peers 7 = none ∧
    handleMessage 7 (ClientMsg.panelRequest "p") sampleServer = (sampleServer, []) :=
  ⟨by decide, C10_unknown_sender_noop sampleServer 7 (ClientMsg.panelRequest "p") (by decide)⟩

/-- C2: a directed negotiation message (offer, answer or ice-candidate)
whose target is absent produces zero outbound messages (and no state
change, no error); when the target is present the message is forwarded to
it verbatim with the sender's id attached as fromId. -/
theorem C2_directed_routing (s : ServerState) (f t : Nat) (a b : String) (m : ClientMsg)
    (hs : (getA s.peers f).isSome)
    (hm : m = ClientMsg.offer t a b ∨ m = ClientMsg.answer t a b ∨
          m = ClientMsg.iceCandidate t a b) :
    (getA s.peers t = none → handleMessage f m s = (s, [])) ∧
    ((getA s.peers t).isSome →
      handleMessage f m s = (s, [(t, OutMsg.forwarded m f)])) := by
  rcases Option.isSome_iff_exists.mp hs with ⟨q, hq⟩
  constructor
  · intro ht
    rcases hm with rfl | rfl | rfl <;> (unfold handleMessage; simp only [hq, ht])
  · intro ht
    rcases Option.isSome_iff_exists.mp ht with ⟨w, hw⟩
    rcases hm with rfl | rfl | rfl <;> (unfold handleMessage; simp only [hq, hw])

/-- Witness for C2: viewer 2 sends an offer to absent peer 9. -/
theorem C2_directed_routing_witness :
    (getA sampleServer.peers 2).isSome = true ∧
    ((getA sampleServer.peers 9 = none →
        handleMessage 2 (ClientMsg.offer 9 "s" "p") sampleServer = (sampleServer, [])) ∧
     ((getA sampleServer.peers 9).isSome →
        handleMessage 2 (ClientMsg.offer 9 "s" "p") sampleServer
          = (sampleServer, [(9, OutMsg.forwarded (ClientMsg.offer 9 "s" "p") 2)]))) :=
  ⟨by decide,
   C2_directed_routing sampleServer 2 9 "s" "p" (ClientMsg.offer 9 "s" "p")
     (by decide) (Or.inl rfl)⟩

/-- C4: a panel-request is sent, carrying the sender's id and the panel id,
to exactly the currently registered capture-role peers; with no capture
peers it produces no outbound message and no state change. -/
theorem C4_panel_request_broadcast (s : ServerState) (f : Nat) (pid : String)
    (hs : (getA s.peers f).isSome) :
    handleMessage f (ClientMsg.panelRequest pid) s
      = (s, (listByRole s "capture").map (fun e => (e.1, OutMsg.panelRequestOut f pid))) ∧
    (listByRole s "capture" = [] →
      (handleMessage f (ClientMsg.panelRequest pid) s).2 = []) := by
  rcases Option.isSome_iff_exists.mp hs with ⟨q, hq⟩
  have h1 : handleMessage f (ClientMsg.panelRequest pid) s
      = (s, (listByRole s "capture").map (fun e => (e.1, OutMsg.panelRequestOut f pid))) := by
    unfold handleMessage listByRole
    rw [hq]
  refine ⟨h1, fun he => ?_⟩
  rw [h1, he]
  rfl

/-- Witness for C4 at a concrete state with one capture peer. -/
theorem C4_panel_request_broadcast_witness :
    (getA sampleServer.peers 2).isSome = true ∧
    (handleMessage 2 (ClientMsg.panelRequest "p") sampleServer
      = (sampleServer, (listByRole sampleServer "capture").map
          (fun e => (e.1, OutMsg.panelRequestOut 2 "p"))) ∧
     (listByRole sampleServer "capture" = [] →
       (handleMessage 2 (ClientMsg.panelRequest "p") sampleServer).2 = [])) :=
  ⟨by decide, C4_panel_request_broadcast sampleServer 2 "p" (by decide)⟩

/-- C6 counterexample: with two connected peers, peer 1 registers and the
peer-registered notification is delivered to peer 1 itself (the broadcast
has no exclusion), contradicting the claim that it goes only to the other
peers. -/
theorem C6_counterexample :
    (1, OutMsg.peerRegistered 1 "viewer" [])
      ∈ (handleMessage 1 (ClientMsg.register "viewer" none) twoFresh).2 := by
  decide

/-- C6 (amended): the peer-registered notification carrying the new peer's
id, role and panel set is sent to every connected peer, the registering
peer included. -/
theorem C6_register_broadcast_all (s : ServerState) (f : Nat) (role : String)
    (pids : Option (List String)) (hs : (getA s.peers f).isSome) :
    (handleMessage f (ClientMsg.register role pids) s).2
      = s.peers.map (fun e => (e.1, OutMsg.peerRegistered f role (pids.getD []))) := by
  rcases Option.isSome_iff_exists.mp hs with ⟨q, hq⟩
  have hout : (handleMessage f (ClientMsg.register role pids) s).2
      = (modA s.peers f
          (fun p => { p with role := some role, panelIds := pids.getD [] })).map
          (fun e => (e.1, OutMsg.peerRegistered f role (pids.getD []))) := by
    unfold handleMessage
    rw [hq]
  rw [hout, modA_map_pair]

/-- Witness for C6 (amended) at a concrete two-peer state. -/
theorem C6_register_broadcast_all_witness :
    (getA twoFresh.peers 1).isSome = true ∧
    (handleMessage 1 (ClientMsg.register "viewer" none) twoFresh).2
      = twoFresh.peers.map
          (fun e => (e.1, OutMsg.peerRegistered 1 "viewer" ((none : Option (List String)).getD []))) :=
  ⟨by decide, C6_register_broadcast_all twoFresh 1 "viewer" none (by decide)⟩

/-- C7 counterexample: peer 2 is present in the registry but registered as
a viewer, and a capture-window command directed at it is dropped, while an
offer would be forwarded; presence is therefore not the only condition
governing forwarding of capture-window and release-panel. -/
theorem C7_counterexample :
    (getA twoViewers.peers 2).isSome = true ∧
    handleMessage 1 (ClientMsg.captureWindow 2 "w" "p" "landscape") twoViewers
      = (twoViewers, []) ∧
    handleMessage 1 (ClientMsg.offer 2 "s" "p") twoViewers
      = (twoViewers, [(2, OutMsg.forwarded (ClientMsg.offer 2 "s" "p") 1)]) := by
  decide

/-- C7 (amended): capture-window and release-panel are forwarded verbatim
with fromId attached exactly when the target is present and registered
with the capture role; otherwise (absent, unregistered, or viewer target)
they are silently dropped. -/
theorem C7_command_routing (s : ServerState) (f t : Nat) (a b o pid : String)
    (m : ClientMsg) (hs : (getA s.peers f).isSome)
    (hm : m = ClientMsg.captureWindow t a b o ∨ m = ClientMsg.releasePanelMsg t pid) :
    ((getA s.peers t).map Peer.role = some (some "capture") →
        handleMessage f m s = (s, [(t, OutMsg.forwarded m f)])) ∧
    (¬ (getA s.peers t).map Peer.role = some (some "capture") →
        handleMessage f m s = (s, [])) := by
  rcases Option.isSome_iff_exists.mp hs with ⟨q, hq⟩
  constructor
  · intro ht
    rcases hto : getA s.peers t with - | tp
    · rw [hto] at ht
      simp at ht
    · rw [hto] at ht
      have hrole : tp.role = some "capture" := by simpa using ht
      rcases hm with rfl | rfl <;>
        (unfold handleMessage; simp only [hq, hto]; rw [if_pos hrole])
  · intro ht
    rcases hto : getA s.peers t with - | tp
    · rcases hm with rfl | rfl <;> (unfold handleMessage; simp only [hq, hto])
    · rw [hto] at ht
      have hrole : ¬ tp.role = some "capture" := by simpa using ht
      rcases hm with rfl | rfl <;>
        (unfold handleMessage; simp only [hq, hto]; rw [if_neg hrole])

/-- Witness for C7 (amended): capture-window from viewer 2 to capture
peer 1 in the sample state. -/
theorem C7_command_routing_witness :
    (getA sampleServer.peers 2).isSome = true ∧
    (((getA sampleServer.peers 1).map Peer.role = some (some "capture") →
        handleMessage 2 (ClientMsg.captureWindow 1 "w" "p" "portrait") sampleServer
          = (sampleServer,
             [(1, OutMsg.forwarded (ClientMsg.captureWindow 1 "w" "p" "portrait") 2)])) ∧
     (¬ (getA sampleServer.peers 1).map Peer.role = some (some "capture") →
        handleMessage 2 (ClientMsg.captureWindow 1 "w" "p" "portrait") sampleServer
          = (sampleServer, []))) :=
  ⟨by decide,
   C7_command_routing sampleServer 2 1 "w" "p" "portrait" "x"
     (ClientMsg.captureWindow 1 "w" "p" "portrait") (by decide) (Or.inl rfl)⟩


/-- Register steps keep the sender's registry entry present. -/
theorem register_step_isSome (s : ServerState) (f : Nat) (role : String)
    (pids : Option (List String)) (hs : (getA s.peers f).isSome) :
    (getA (handleMessage f (ClientMsg.register role pids) s).1.peers f).isSome := by
  rw [register_step_getA s f role pids hs]
  rcases Option.isSome_iff_exists.mp hs with ⟨q, hq⟩
  rw [hq]
  rfl

/-- Presence of the sender's entry survives any fold of register steps. -/
theorem applyRegisters_isSome (f : Nat) (regs : List (String × Option (List String)))
    (s : ServerState) (hs : (getA s.peers f).isSome) :
    (getA (applyRegisters f s regs).peers f).isSome := by
  induction regs generalizing s with
  | nil => exact hs
  | cons r rs ih =>
    exact ih _ (register_step_isSome s f r.1 r.2 hs)

/-- C8: re-registration is last-writer-wins: after any sequence of register
messages from a present peer ending in register(role, panelIds), the stored
role is exactly that final role and the stored panel set is exactly that
final panel list, regardless of all earlier registrations. -/
theorem C8_last_writer_wins (s : ServerState) (f : Nat)
    (regs : List (String × Option (List String))) (role : String) (l : List String)
    (hs : (getA s.peers f).isSome) :
    (getA (applyRegisters f s (regs ++ [(role, some l)])).peers f).map Peer.role
      = some (some role) ∧
    (getA (applyRegisters f s (regs ++ [(role, some l)])).peers f).map Peer.panelIds
      = some l := by
  have hmid : (getA (applyRegisters f s regs).peers f).isSome :=
    applyRegisters_isSome f regs s hs
  rcases Option.isSome_iff_exists.mp hmid with ⟨q, hq⟩
  have happ : applyRegisters f s (regs ++ [(role, some l)])
      = (handleMessage f (ClientMsg.register role (some l)) (applyRegisters f s regs)).1 := by
    unfold applyRegisters
    rw [List.foldl_append]
    rfl
  rw [happ, register_step_getA (applyRegisters f s regs) f role (some l) hmid, hq]
  constructor <;> rfl

/-- Witness for C8: peer 1 registers as capture then as viewer; the stored
entry reflects only the final registration. -/
theorem C8_last_writer_wins_witness :
    (getA twoFresh.peers 1).isSome = true ∧
    ((getA (applyRegisters 1 twoFresh ([("capture", some ["a"])] ++ [("viewer", some [])])).peers 1).map Peer.role
        = some (some "viewer") ∧
     (getA (applyRegisters 1 twoFresh ([("capture", some ["a"])] ++ [("viewer", some [])])).peers 1).map Peer.panelIds
        = some []) :=
  ⟨by decide, C8_last_writer_wins twoFresh 1 [("capture", some ["a"])] "viewer" [] (by decide)⟩

/-- C9: the viewer's input data channels are keyed by panelId alone: the
map keeps at most one channel per panelId, and releasePanel(t, p) removes
the channel stored under p whatever capture peer t is named. -/
theorem C9_input_channels_by_panel (c : Client) (sp label : String) (ch : Nat)
    (t : Nat) (p : String) (hN : (c.dataChannels.map Prod.fst).Nodup) :
    ((onDataChannel c sp label ch).dataChannels.map Prod.fst).Nodup ∧
    getA ((releasePanel c t p).1).dataChannels p = none := by
  constructor
  · exact keys_setA_nodup c.dataChannels (channelPanelFor sp label) ch hN
  · rcases hg : getA c.peerConnections (t, p) with - | pc <;>
      simp [releasePanel, hg, getA_eraseA_self]

/-- Witness for C9 at the sample client. -/
theorem C9_input_channels_by_panel_witness :
    (sampleClient.dataChannels.map Prod.fst).Nodup ∧
    (((onDataChannel sampleClient "q" "input:r" 9).dataChannels.map Prod.fst).Nodup ∧
     getA ((releasePanel sampleClient 3 "p").1).dataChannels "p" = none) :=
  ⟨by decide, C9_input_channels_by_panel sampleClient "q" "input:r" 9 3 "p" (by decide)⟩

/-- C1 counterexample: the sample client already holds a session (identity
0) for key (1, "p").  Handling a new offer for that key leaves that very
connection object in the map (identity still 0, never closed) and
allocates no fresh connection (the identity counter is unchanged), so the
prior session is not destroyed and no fresh session is created. -/
theorem C1_counterexample :
    getA (handleOffer sampleClient 1 "p" "s").1.peerConnections (1, "p")
      = some ⟨0, false, some "s", some (mkAnswer "s")⟩ ∧
    ¬ (handleOffer sampleClient 1 "p" "s").1.nextPcId = sampleClient.nextPcId + 1 := by
  decide


/-- Keys of a map-to-pair broadcast are the original keys. -/
theorem map_pair_fst {α β γ : Type} (l : List (α × β)) (m : γ) :
    (l.map (fun e => (e.1, m))).map Prod.fst = l.map Prod.fst := by
  induction l with
  | nil => rfl
  | cons e l ih => simp [ih]

/-- C1 (amended): on an offer for (fromId, panelId) the client reuses the
existing session for that key when one exists — the remote description and
generated answer are applied to that same connection object, which is
neither closed nor replaced, and no new connection is allocated — and a
fresh session is created only when the key is absent; afterwards the map
still holds at most one session per key, and the answer is sent to fromId
with the panel id attached. -/
theorem C1_offer_session_reuse (c : Client) (f : Nat) (p sdp : String)
    (hN : (c.peerConnections.map Prod.fst).Nodup) :
    ((handleOffer c f p sdp).1.peerConnections.map Prod.fst).Nodup ∧
    (handleOffer c f p sdp).2 = [ClientOut.answerOut f (mkAnswer sdp) p] ∧
    getA (handleOffer c f p sdp).1.peerConnections (f, p)
      = some { (getA c.peerConnections (f, p)).getD
                 { pcId := c.nextPcId, closed := false,
                   remoteDesc := none, localDesc := none } with
               remoteDesc := some sdp, localDesc := some (mkAnswer sdp) } ∧
    (handleOffer c f p sdp).1.nextPcId
      = (if (getA c.peerConnections (f, p)).isSome then c.nextPcId
         else c.nextPcId + 1) := by
  rcases hg : getA c.peerConnections (f, p) with - | pc
  · have hpcs : (handleOffer c f p sdp).1.peerConnections
        = modA (c.peerConnections ++ [((f, p), ⟨c.nextPcId, false, none, none⟩)]) (f, p)
            (fun _ => ⟨c.nextPcId, false, some sdp, some (mkAnswer sdp)⟩) := by
      unfold handleOffer getOrCreatePC
      rw [hg]
    have hnext : (handleOffer c f p sdp).1.nextPcId = c.nextPcId + 1 := by
      unfold handleOffer getOrCreatePC
      rw [hg]
    refine ⟨?_, rfl, ?_, ?_⟩
    · rw [hpcs, keys_modA, List.map_append]
      simp only [List.map_cons, List.map_nil]
      rw [List.nodup_append]
      refine ⟨hN, List.nodup_singleton _, ?_⟩
      rw [List.disjoint_singleton]
      exact (getA_eq_none_iff c.peerConnections (f, p)).mp hg
    · rw [hpcs, getA_modA_self, getA_append_of_none _ _ _ hg]
      simp [getA]
    · rw [hnext]
      simp
  · have hpcs : (handleOffer c f p sdp).1.peerConnections
        = modA c.peerConnections (f, p)
            (fun _ => { pc with remoteDesc := some sdp, localDesc := some (mkAnswer sdp) }) := by
      unfold handleOffer getOrCreatePC
      rw [hg]
    have hnext : (handleOffer c f p sdp).1.nextPcId = c.nextPcId := by
      unfold handleOffer getOrCreatePC
      rw [hg]
    refine ⟨?_, rfl, ?_, ?_⟩
    · rw [hpcs, keys_modA]
      exact hN
    · rw [hpcs, getA_modA_self, hg]
      rfl
    · rw [hnext]
      simp

/-- Witness for C1 (amended) at the sample client, whose key (1, "p") is
already occupied by connection 0. -/
theorem C1_offer_session_reuse_witness :
    (sampleClient.peerConnections.map Prod.fst).Nodup ∧
    (((handleOffer sampleClient 1 "p" "s").1.peerConnections.map Prod.fst).Nodup ∧
     (handleOffer sampleClient 1 "p" "s").2 = [ClientOut.answerOut 1 (mkAnswer "s") "p"] ∧
     getA (handleOffer sampleClient 1 "p" "s").1.peerConnections (1, "p")
       = some { (getA sampleClient.peerConnections (1, "p")).getD
                  { pcId := sampleClient.nextPcId, closed := false,
                    remoteDesc := none, localDesc := none } with
                remoteDesc := some "s", localDesc := some (mkAnswer "s") } ∧
     (handleOffer sampleClient 1 "p" "s").1.nextPcId
       = (if (getA sampleClient.peerConnections (1, "p")).isSome then sampleClient.nextPcId
          else sampleClient.nextPcId + 1)) :=
  ⟨by decide, C1_offer_session_reuse sampleClient 1 "p" "s" (by decide)⟩

/-- C5 counterexample: from the empty broker two connections arrive and
neither ever registers.  The welcome sent to the second connection lists
peer 1 — whose role is still null, i.e. a connected-but-unregistered
peer — so the welcome peer list is not restricted to peers that completed
registration. -/
theorem C5_counterexample :
    (step (step initServer Ev.connect).1 Ev.connect).2
      = [(2, OutMsg.welcome 2 [⟨1, none, []⟩] none)] ∧
    (getA (step initServer Ev.connect).1.peers 1).map Peer.role = some none := by
  decide

/-- C5 (amended): the welcome sent to a new connection lists every other
currently connected peer — registered or not, an unregistered one showing
a null role and empty panel set — each with its current role and panel
set, plus the first cached capture window catalogue when one exists. -/
theorem C5_welcome_lists_all_connected (s : ServerState) (hInv : Inv s) :
    (handleConnect s).2
      = [(s.nextPeerId,
          OutMsg.welcome s.nextPeerId
            (s.peers.map (fun e => PeerInfo.mk e.1 e.2.role e.2.panelIds))
            ((s.peers.find? (fun e => decide (e.2.role = some "capture") && e.2.windowList.isSome)).bind
              (fun e => e.2.windowList)))] := by
  have hfil : (s.peers ++ [(s.nextPeerId, freshPeer)]).filter
      (fun e => decide (¬ e.1 = s.nextPeerId)) = s.peers := by
    rw [List.filter_append]
    have h1 : s.peers.filter (fun e => decide (¬ e.1 = s.nextPeerId)) = s.peers := by
      rw [List.filter_eq_self]
      intro a ha
      have hlt := hInv a.1 (List.mem_map_of_mem Prod.fst ha)
      simp only [decide_eq_true_eq]
      exact Nat.ne_of_lt hlt
    have h2 : ([(s.nextPeerId, freshPeer)] : List (Nat × Peer)).filter
        (fun e => decide (¬ e.1 = s.nextPeerId)) = [] := by
      simp
    rw [h1, h2, List.append_nil]
  have hfind : (s.peers ++ [(s.nextPeerId, freshPeer)]).find?
      (fun e => decide (e.2.role = some "capture") && e.2.windowList.isSome)
      = s.peers.find? (fun e => decide (e.2.role = some "capture") && e.2.windowList.isSome) :=
    find?_append_single_false _ _ _ rfl
  simp only [handleConnect]
  rw [hfil, hfind]

/-- Witness for C5 (amended) at a broker state with a cached catalogue. -/
theorem C5_welcome_lists_all_connected_witness :
    Inv cacheServer ∧
    (handleConnect cacheServer).2
      = [(cacheServer.nextPeerId,
          OutMsg.welcome cacheServer.nextPeerId
            (cacheServer.peers.map (fun e => PeerInfo.mk e.1 e.2.role e.2.panelIds))
            ((cacheServer.peers.find? (fun e => decide (e.2.role = some "capture") && e.2.windowList.isSome)).bind
              (fun e => e.2.windowList)))] :=
  ⟨by unfold Inv; decide, C5_welcome_lists_all_connected cacheServer (by unfold Inv; decide)⟩

/-- C3: when a peer p disconnects the broker removes its registry entry and
broadcasts peer-disconnected(p) to exactly the remaining peers (p receives
nothing); under every subsequent event sequence the capture-role listing
never contains p again; and a client processing the notification closes
every session whose key names p and removes those entries from its session
map. -/
theorem C3_disconnect_cleanup (s : ServerState) (p : Nat) (evs : List Ev)
    (c : Client) (pan : String) (hInv : Inv s) (hp : p < s.nextPeerId) :
    getA (handleClose s p).1.peers p = none ∧
    (handleClose s p).2
      = (handleClose s p).1.peers.map (fun e => (e.1, OutMsg.peerDisconnected p)) ∧
    p ∉ ((handleClose s p).2.map Prod.fst) ∧
    p ∉ ((listByRole (run (handleClose s p).1 evs) "capture").map Prod.fst) ∧
    getA (handlePeerDisconnected c p).1.peerConnections (p, pan) = none ∧
    ((handlePeerDisconnected c p).2.all (fun q => q.closed)) = true := by
  have habs : getA (handleClose s p).1.peers p = none := by
    rw [(handleClose_state s p).1]
    exact getA_eraseA_self s.peers p
  have habs2 : p ∉ (handleClose s p).1.peers.map Prod.fst :=
    (getA_eq_none_iff _ _).mp habs
  have hInv1 : Inv (handleClose s p).1 := by
    intro k hk
    rw [(handleClose_state s p).1] at hk
    rw [(handleClose_state s p).2]
    exact hInv k (mem_keys_eraseA s.peers p k hk)
  have hp1 : p < (handleClose s p).1.nextPeerId := by
    rw [(handleClose_state s p).2]
    exact hp
  refine ⟨habs, rfl, ?_, ?_, ?_, ?_⟩
  · have h2 : (handleClose s p).2
        = (handleClose s p).1.peers.map (fun e => (e.1, OutMsg.peerDisconnected p)) := rfl
    rw [h2, map_pair_fst]
    exact habs2
  · intro hmem
    apply run_absent (handleClose s p).1 evs p hInv1 hp1 habs2
    rcases List.mem_map.mp hmem with ⟨e, he, hfst⟩
    have hm : e.1 ∈ (run (handleClose s p).1 evs).peers.map Prod.fst :=
      List.mem_map_of_mem Prod.fst (List.mem_filter.mp he).1
    rw [hfst] at hm
    exact hm
  · rw [getA_eq_none_iff]
    intro hmem
    rcases List.mem_map.mp hmem with ⟨e, he, hfst⟩
    have hne : ¬ e.1.1 = p := of_decide_eq_true (List.mem_filter.mp he).2
    apply hne
    rw [hfst]
  · rw [List.all_eq_true]
    intro q hq
    rcases List.mem_map.mp hq with ⟨e, -, rfl⟩
    rfl

/-- Witness for C3: capture peer 1 disconnects from the sample state, a
new peer connects and peer 2 re-registers as capture afterwards, and the
sample client processes the notification. -/
theorem C3_disconnect_cleanup_witness :
    Inv sampleServer ∧ 1 < sampleServer.nextPeerId ∧
    (getA (handleClose sampleServer 1).1.peers 1 = none ∧
     (handleClose sampleServer 1).2
       = (handleClose sampleServer 1).1.peers.map (fun e => (e.1, OutMsg.peerDisconnected 1)) ∧
     1 ∉ ((handleClose sampleServer 1).2.map Prod.fst) ∧
     1 ∉ ((listByRole (run (handleClose sampleServer 1).1
            [Ev.connect, Ev.msg 2 (ClientMsg.register "capture" (some ["x"]))]) "capture").map Prod.fst) ∧
     getA (handlePeerDisconnected sampleClient 1).1.peerConnections (1, "p") = none ∧
     ((handlePeerDisconnected sampleClient 1).2.all (fun q => q.closed)) = true) :=
  ⟨by unfold Inv; decide, by decide,
   C3_disconnect_cleanup sampleServer 1
     [Ev.connect, Ev.msg 2 (ClientMsg.register "capture" (some ["x"]))]
     sampleClient "p" (by unfold Inv; decide) (by decide)⟩

end HaloView
